import Mathlib

/-!
Task manager: the task service and the status-advancing UI

A shallow embedding of `backend/controllers/taskController.js`
(`getAllTasks`, `createTask`, `updateTask`, `deleteTask`) and of the two UI
functions that drive status changes (`handleUpdateStatus` in
`frontend/src/App.js`, `getActionButton` in
`frontend/src/components/TaskList.js`).

The handlers are `async (req, res) => ...` functions acting on a document
collection.  Here a handler is a pure function from the collection before
the call and the request (`req.params.id`, `req.body`) to the response
written on `res` and the collection after the call.

Request-body fields are JSON strings when present; `none` stands for a field
that is absent (or `null`): the handlers only ever test such a field for
truthiness before using it, so the two are indistinguishable to them.  Body
values of another JSON type (numbers, booleans, arrays, objects) are not
represented: what is stored for them is decided by the casting of the Task
model, which is not part of the sources, and nothing below speaks about them.

The route parameter `req.params.id` is arbitrary text.  The store's lookups
first cast it to an identifier and throw when it denotes none; the handlers
catch that and answer 500.
-/

namespace TaskManager

/-! ## Data model -/

/-- A task document: store-assigned identifier, title, status and creation
time. -/
structure Task where
  id : Nat
  title : String
  status : String
  createdAt : Nat
deriving DecidableEq, Repr

/-- The collection of task documents, in insertion order, together with the
counters from which the store draws the identifier and the creation time of
the next document. -/
structure Store where
  docs : List Task
  nextId : Nat
  clock : Nat
deriving DecidableEq, Repr

/-- The fields `{ title, status }` destructured from `req.body`, each a JSON
string when present. -/
structure Body where
  title : Option String
  status : Option String
deriving DecidableEq, Repr

/-- A failure raised by the store, whose message a handler attaches to its
500 response as `error`. -/
inductive StoreError where
  | validation
  | cast
deriving DecidableEq, Repr

/-- The route parameter `req.params.id`: the text of an identifier of the
store, or text that denotes no identifier (such as `abc`). -/
inductive IdParam where
  | key (id : Nat)
  | malformed (raw : String)
deriving DecidableEq, Repr

/-- The JSON envelope `{ success, message, data, error }` together with the
HTTP status code set by `res.status(...)`. -/
structure Response (α : Type) where
  code : Nat
  success : Bool
  message : Option String
  data : Option α
  error : Option StoreError
deriving DecidableEq, Repr

/-- JavaScript truthiness of an optional string: absent and `''` are falsy. -/
def truthy (v : Option String) : Bool :=
  match v with
  | none => false
  | some x => x != ""

/-! ## The Task model -/

/-- Modelled from the spec: the values of the `status` enumeration declared
by the Task model (`backend/models/Task.js` is not part of the sources). -/
def statusEnum : List String := ["to-do", "in-progress", "done"]

/-- Modelled from the spec: the Task model's validation, run by `save`; the
status of a document must be a member of the enumeration. -/
def validate (t : Task) : Bool :=
  statusEnum.contains t.status

/-- The empty collection. -/
def Store.empty : Store := ⟨[], 0, 0⟩

/-- Modelled from the spec: a lookup the store cannot perform is a store
failure.  `Task.findById` and `Task.findByIdAndDelete` first cast the route
parameter to an identifier; text that denotes none makes them throw. -/
def castId : IdParam → Except StoreError Nat
  | .key id => .ok id
  | .malformed _ => .error .cast

/-- Modelled from the spec: the query of `Task.findById(id)` once the
parameter is cast, the document keyed by `id`, if any. -/
def Store.findById (s : Store) (id : Nat) : Option Task :=
  s.docs.find? (fun d => d.id == id)

/-- Replaces the first document keyed like `t` by `t`. -/
def replaceDoc (t : Task) : List Task → List Task
  | [] => []
  | d :: ds => if d.id = t.id then t :: ds else d :: replaceDoc t ds

/-- Modelled from the spec: `new Task({ title, status })` followed by
`task.save()`.  The store assigns the identifier and the creation time,
validates the document and appends it; a validation failure is raised as an
error and persists nothing. -/
def Store.create (s : Store) (title status : String) : Except StoreError (Task × Store) :=
  let task : Task := ⟨s.nextId, title, status, s.clock⟩
  if validate task then
    .ok (task, ⟨s.docs ++ [task], s.nextId + 1, s.clock + 1⟩)
  else
    .error .validation

/-- Modelled from the spec: `task.save()` on a document obtained from
`findById`.  The document is validated and written back under its
identifier; a validation failure is raised as an error and writes
nothing. -/
def Store.save (s : Store) (t : Task) : Except StoreError (Task × Store) :=
  if validate t then
    .ok (t, ⟨replaceDoc t s.docs, s.nextId, s.clock⟩)
  else
    .error .validation

/-- Modelled from the spec: the query of `Task.findByIdAndDelete(id)` once the
parameter is cast, which removes the document keyed by `id` and returns it as
it was, or returns nothing when no document matches. -/
def Store.findByIdAndDelete (s : Store) (id : Nat) : Option Task × Store :=
  match s.findById id with
  | none => (none, s)
  | some t => (some t, ⟨s.docs.eraseP (fun d => d.id == id), s.nextId, s.clock⟩)

/-- Modelled from the spec: `Task.find().sort({ createdAt: -1 })`, every
document, newest first. -/
def Store.findSorted (s : Store) : List Task :=
  s.docs.mergeSort (fun a b => decide (b.createdAt ≤ a.createdAt))

/-! ## The controller -/

/-- The handler `getAllTasks`. -/
def getAllTasks (s : Store) : Response (List Task) × Store :=
  (⟨200, true, none, some s.findSorted, none⟩, s)

/-- The JavaScript expression `v || d` on an optional string. -/
def orDefault (v : Option String) (d : String) : String :=
  if truthy v then v.getD d else d

/-- The handler `createTask`. -/
def createTask (s : Store) (body : Body) : Response Task × Store :=
  let title := body.title
  let status := body.status
  if !truthy title then
    (⟨400, false, some "Title is required", none, none⟩, s)
  else
    match s.create (title.getD "") (orDefault status "to-do") with
    | .ok (savedTask, s') =>
      (⟨201, true, some "Task created successfully", some savedTask, none⟩, s')
    | .error e =>
      (⟨500, false, some "Error creating task", none, some e⟩, s)

/-- The status guard of `updateTask` (the block under "Validate status
transition"): `true` exactly when the handler returns its 400 response. -/
def transitionRejected (current : String) (status : Option String) : Bool :=
  if truthy status && status != some current then
    if current == "to-do" && status == some "done" then true else false
  else false

/-- The two assignments of `updateTask`, `if (title) task.title = title;` and
`if (status) task.status = status;`, applied to the fetched document. -/
def assignFields (task : Task) (title status : Option String) : Task :=
  let task1 : Task := if truthy title then { task with title := title.getD task.title } else task
  if truthy status then { task1 with status := status.getD task1.status } else task1

/-- The handler `updateTask`. -/
def updateTask (s : Store) (id : IdParam) (body : Body) : Response Task × Store :=
  let title := body.title
  let status := body.status
  match castId id with
  | .error e => (⟨500, false, some "Error updating task", none, some e⟩, s)
  | .ok key =>
    match s.findById key with
    | none => (⟨404, false, some "Task not found", none, none⟩, s)
    | some task =>
      if transitionRejected task.status status then
        (⟨400, false,
          some "Cannot move task from to-do directly to done. Must go through in-progress first.",
          none, none⟩, s)
      else
        match s.save (assignFields task title status) with
        | .ok (updatedTask, s') =>
          (⟨200, true, some "Task updated successfully", some updatedTask, none⟩, s')
        | .error e =>
          (⟨500, false, some "Error updating task", none, some e⟩, s)

/-- The handler `deleteTask`. -/
def deleteTask (s : Store) (id : IdParam) : Response Task × Store :=
  match castId id with
  | .error e => (⟨500, false, some "Error deleting task", none, some e⟩, s)
  | .ok key =>
    match s.findByIdAndDelete key with
    | (none, s') => (⟨404, false, some "Task not found", none, none⟩, s')
    | (some task, s') => (⟨200, true, some "Task deleted successfully", some task, none⟩, s')

/-! ## Request sequences -/

/-- A call of one of the four handlers. -/
inductive Request where
  | list
  | create (body : Body)
  | update (id : IdParam) (body : Body)
  | delete (id : IdParam)
deriving DecidableEq, Repr

/-- The collection after a handler has served one request. -/
def step (s : Store) : Request → Store
  | .list => (getAllTasks s).2
  | .create body => (createTask s body).2
  | .update id body => (updateTask s id body).2
  | .delete id => (deleteTask s id).2

/-- The collection after a sequence of requests, served in order. -/
def run (s : Store) (reqs : List Request) : Store :=
  reqs.foldl step s

/-- A collection is keyed by identifier: no two documents share one, and every
identifier in use lies below the next one to be assigned. -/
def Store.Keyed (s : Store) : Prop :=
  (s.docs.map Task.id).Nodup ∧ ∀ d ∈ s.docs, d.id < s.nextId

/-! ## The UI -/

/-- The `newStatus` computed by `handleUpdateStatus` from `currentStatus`; it
stays `undefined` for any status other than `to-do` and `in-progress`, and
an `undefined` field is dropped from the JSON body. -/
def newStatus (currentStatus : String) : Option String :=
  if currentStatus == "to-do" then some "in-progress"
  else if currentStatus == "in-progress" then some "done"
  else none

/-- The function `handleUpdateStatus`: one `PUT` with body
`{ status: newStatus }`; on a 2xx response the task list is fetched again, on
any other response the server's message (or a generic one) is shown in an
alert and the displayed list is kept.  The `id` is the `_id` of a listed
task, hence the text of an identifier.  The result is the collection after
the call, the displayed list, and the alert, if any. -/
def handleUpdateStatus (srv : Store) (tasks : List Task) (id : Nat) (currentStatus : String) :
    Store × List Task × Option String :=
  let r := updateTask srv (.key id) ⟨none, newStatus currentStatus⟩
  if 200 ≤ r.1.code ∧ r.1.code < 300 then
    let g := getAllTasks r.2
    (g.2, g.1.data.getD [], none)
  else
    (r.2, tasks, some (orDefault r.1.message "Failed to update task"))

/-- What `getActionButton` renders for a task: a Start or a Done button whose
`onClick` calls `onUpdateStatus(task._id, task.status)`, or a check mark. -/
inductive ActionButton where
  | start (id : Nat) (status : String)
  | done (id : Nat) (status : String)
  | checkmark
deriving DecidableEq, Repr

/-- The function `getActionButton` of the task list. -/
def getActionButton (task : Task) : ActionButton :=
  if task.status == "to-do" then .start task.id task.status
  else if task.status == "in-progress" then .done task.id task.status
  else .checkmark

/-- The arguments a click on the rendered element passes to `onUpdateStatus`;
the check mark is a plain `span` and cannot be clicked. -/
def ActionButton.onClick : ActionButton → Option (Nat × String)
  | .start id status => some (id, status)
  | .done id status => some (id, status)
  | .checkmark => none

/-! ## Facts about the Task model -/

theorem findById_mem {s : Store} {id : Nat} {t : Task} (h : s.findById id = some t) :
    t ∈ s.docs :=
  List.mem_of_find?_eq_some h

theorem findById_id {s : Store} {id : Nat} {t : Task} (h : s.findById id = some t) :
    t.id = id := by
  have := List.find?_some h
  simpa using this

theorem replaceDoc_of_find (t : Task) :
    ∀ docs : List Task, docs.find? (fun d => d.id == t.id) = some t → replaceDoc t docs = docs
  | [], h => by simp at h
  | d :: ds, h => by
    by_cases hd : d.id = t.id
    · have : d = t := by simpa [List.find?, hd] using h
      simp [replaceDoc, this]
    · have h' : ds.find? (fun d => d.id == t.id) = some t := by
        rwa [List.find?_cons_of_neg _ (by simpa using hd)] at h
      simp [replaceDoc, hd, replaceDoc_of_find t ds h']

theorem find_replaceDoc (t u : Task) (hid : u.id = t.id) :
    ∀ docs : List Task, docs.find? (fun d => d.id == t.id) = some t →
      (replaceDoc u docs).find? (fun d => d.id == t.id) = some u
  | [], h => by simp at h
  | d :: ds, h => by
    by_cases hd : d.id = t.id
    · simp [replaceDoc, hd, hid, List.find?]
    · have h' : ds.find? (fun d => d.id == t.id) = some t := by
        rwa [List.find?_cons_of_neg _ (by simpa using hd)] at h
      simp [replaceDoc, hd, hid, List.find?, find_replaceDoc t u hid ds h']

theorem mem_replaceDoc {t x : Task} : ∀ {docs : List Task}, x ∈ replaceDoc t docs → x = t ∨ x ∈ docs
  | [], h => by simp [replaceDoc] at h
  | d :: ds, h => by
    by_cases hd : d.id = t.id
    · simp [replaceDoc, hd] at h
      rcases h with h | h
      · exact Or.inl h
      · exact Or.inr (List.mem_cons_of_mem _ h)
    · simp [replaceDoc, hd] at h
      rcases h with h | h
      · exact Or.inr (by simp [h])
      · rcases mem_replaceDoc h with h | h
        · exact Or.inl h
        · exact Or.inr (List.mem_cons_of_mem _ h)

theorem validate_iff (t : Task) : validate t = true ↔ t.status ∈ statusEnum := by
  simp [validate]

theorem mem_statusEnum (st : String) :
    st ∈ statusEnum ↔ st = "to-do" ∨ st = "in-progress" ∨ st = "done" := by
  simp [statusEnum]

theorem truthy_of_mem_statusEnum {st : String} (h : st ∈ statusEnum) : truthy (some st) = true := by
  rcases (mem_statusEnum st).1 h with h | h | h <;> subst h <;> decide

theorem assignFields_id (t : Task) (title status : Option String) :
    (assignFields t title status).id = t.id := by
  unfold assignFields
  split_ifs <;> rfl

theorem assignFields_status_some (t : Task) (title : Option String) {st : String}
    (h : truthy (some st) = true) : (assignFields t title (some st)).status = st := by
  simp [assignFields, h]

theorem assignFields_status_falsy (t : Task) (title : Option String) {status : Option String}
    (h : truthy status = false) : (assignFields t title status).status = t.status := by
  by_cases ht : truthy title = true <;> simp [assignFields, h, ht]

theorem assignFields_title_some (t : Task) (status : Option String) {x : String}
    (h : x ≠ "") : (assignFields t (some x) status).title = x := by
  have hx : truthy (some x) = true := by simpa [truthy] using h
  by_cases hs : truthy status = true <;> simp [assignFields, hx, hs]

theorem assignFields_title_falsy (t : Task) (status : Option String) {title : Option String}
    (h : truthy title = false) : (assignFields t title status).title = t.title := by
  by_cases hs : truthy status = true <;> simp [assignFields, h, hs]

theorem assignFields_same (t : Task) : assignFields t none (some t.status) = t := by
  unfold assignFields
  cases t
  split_ifs <;> rfl

/-- An update of a stored task that passes the status guard and the model's
validation answers 200 with the modified document and writes it back. -/
theorem updateTask_accepted {s : Store} {id : Nat} {t : Task} (body : Body)
    (hfind : s.findById id = some t)
    (hguard : transitionRejected t.status body.status = false)
    (hvalid : validate (assignFields t body.title body.status) = true) :
    updateTask s (.key id) body =
      (⟨200, true, some "Task updated successfully",
          some (assignFields t body.title body.status), none⟩,
        ⟨replaceDoc (assignFields t body.title body.status) s.docs, s.nextId, s.clock⟩) := by
  simp [updateTask, castId, hfind, hguard, Store.save, hvalid]

/-- An update of a stored task answers 200 only if it passed the status guard
and the model's validation. -/
theorem updateTask_ok_inv {s : Store} {id : Nat} {t : Task} (body : Body)
    (hfind : s.findById id = some t) (hok : (updateTask s (.key id) body).1.code = 200) :
    transitionRejected t.status body.status = false ∧
      validate (assignFields t body.title body.status) = true := by
  cases hg : transitionRejected t.status body.status
  · cases hv : validate (assignFields t body.title body.status)
    · simp [updateTask, castId, hfind, hg, Store.save, hv] at hok
    · exact ⟨rfl, rfl⟩
  · simp [updateTask, castId, hfind, hg] at hok

/-- After an accepted update the task is stored, under the same identifier, as
the modified document. -/
theorem findById_after_update {s : Store} {id : Nat} {t : Task} (u : Task)
    (hfind : s.findById id = some t) (hid : u.id = t.id) :
    Store.findById ⟨replaceDoc u s.docs, s.nextId, s.clock⟩ id = some u := by
  have hi := findById_id hfind
  subst hi
  exact find_replaceDoc t u hid s.docs hfind

theorem transitionRejected_eq_true (current : String) (status : Option String) :
    transitionRejected current status = true ↔ current = "to-do" ∧ status = some "done" := by
  constructor
  · intro h
    unfold transitionRejected at h
    split_ifs at h with h1 h2
    · simpa using h2
  · rintro ⟨rfl, rfl⟩
    decide

theorem eraseP_eq_filter (id : Nat) :
    ∀ docs : List Task, (docs.map Task.id).Nodup →
      docs.eraseP (fun d => d.id == id) = docs.filter (fun d => d.id != id)
  | [], _ => rfl
  | d :: ds, h => by
    have hnd : d.id ∉ ds.map Task.id ∧ (ds.map Task.id).Nodup := by
      simpa [List.nodup_cons] using h
    by_cases hd : d.id = id
    · have hall : ∀ x ∈ ds, (fun d : Task => d.id != id) x = true := by
        intro x hx
        have : x.id ≠ d.id := fun e => hnd.1 (e ▸ List.mem_map_of_mem Task.id hx)
        simpa [hd] using this
      simp [hd, List.filter_eq_self.2 hall]
    · simp [hd, eraseP_eq_filter id ds hnd.2]

theorem map_id_replaceDoc (u : Task) :
    ∀ docs : List Task, (replaceDoc u docs).map Task.id = docs.map Task.id
  | [] => rfl
  | d :: ds => by
    by_cases hd : d.id = u.id
    · simp [replaceDoc, hd]
    · simp [replaceDoc, hd, map_id_replaceDoc u ds]

theorem step_docs_cases (s : Store) (req : Request) :
    (step s req = s) ∨
    (∃ task : Task, validate task = true ∧ task.id = s.nextId ∧
      step s req = ⟨s.docs ++ [task], s.nextId + 1, s.clock + 1⟩) ∨
    (∃ u : Task, validate u = true ∧ step s req = ⟨replaceDoc u s.docs, s.nextId, s.clock⟩) ∨
    (∃ id : Nat, step s req = ⟨s.docs.eraseP (fun d => d.id == id), s.nextId, s.clock⟩) := by
  cases req with
  | list => exact Or.inl rfl
  | create body =>
    by_cases ht : truthy body.title = true
    · cases hv : validate ⟨s.nextId, body.title.getD "", orDefault body.status "to-do", s.clock⟩
      · left; simp [step, createTask, ht, Store.create, hv]
      · right; left
        exact ⟨_, hv, rfl, by simp [step, createTask, ht, Store.create, hv]⟩
    · left; simp [step, createTask, ht]
  | update p body =>
    cases p with
    | malformed raw => left; simp [step, updateTask, castId]
    | key id =>
      cases hf : s.findById id with
      | none => left; simp [step, updateTask, castId, hf]
      | some t =>
        cases hg : transitionRejected t.status body.status
        · cases hv : validate (assignFields t body.title body.status)
          · left; simp [step, updateTask, castId, hf, hg, Store.save, hv]
          · right; right; left
            exact ⟨_, hv, by simp [step, updateTask, castId, hf, hg, Store.save, hv]⟩
        · left; simp [step, updateTask, castId, hf, hg]
  | delete p =>
    cases p with
    | malformed raw => left; simp [step, deleteTask, castId]
    | key id =>
      cases hf : s.findById id with
      | none => left; simp [step, deleteTask, castId, Store.findByIdAndDelete, hf]
      | some t =>
        right; right; right
        exact ⟨id, by simp [step, deleteTask, castId, Store.findByIdAndDelete, hf]⟩

theorem step_status (s : Store) (req : Request)
    (h : ∀ d ∈ s.docs, d.status ∈ statusEnum) :
    ∀ d ∈ (step s req).docs, d.status ∈ statusEnum := by
  rcases step_docs_cases s req with e | ⟨task, hv, _, e⟩ | ⟨u, hv, e⟩ | ⟨id, e⟩ <;> rw [e]
  · exact h
  · intro d hd
    rcases List.mem_append.1 hd with hd | hd
    · exact h d hd
    · have : d = task := by simpa using hd
      rw [this]; exact (validate_iff _).1 hv
  · intro d hd
    rcases mem_replaceDoc hd with hd | hd
    · rw [hd]; exact (validate_iff _).1 hv
    · exact h d hd
  · intro d hd
    exact h d (List.mem_of_mem_eraseP hd)

theorem run_status (reqs : List Request) :
    ∀ s : Store, (∀ d ∈ s.docs, d.status ∈ statusEnum) →
      ∀ d ∈ (run s reqs).docs, d.status ∈ statusEnum := by
  induction reqs with
  | nil => intro s h; exact h
  | cons r rs ih => intro s h; exact ih (step s r) (step_status s r h)

theorem step_keyed (s : Store) (req : Request) (h : s.Keyed) : (step s req).Keyed := by
  obtain ⟨hnd, hlt⟩ := h
  rcases step_docs_cases s req with e | ⟨task, _, hid, e⟩ | ⟨u, _, e⟩ | ⟨id, e⟩ <;> rw [e]
  · exact ⟨hnd, hlt⟩
  · constructor
    · simp only [List.map_append, List.map_cons, List.map_nil]
      refine List.Nodup.append hnd (List.nodup_singleton _) ?_
      intro x hx hx'
      have hx1 : x = task.id := by simpa using hx'
      obtain ⟨d, hd, hdx⟩ := List.mem_map.1 hx
      have := hlt d hd
      omega
    · intro d hd
      rcases List.mem_append.1 hd with hd | hd
      · have := hlt d hd
        show d.id < s.nextId + 1
        omega
      · have : d = task := by simpa using hd
        show d.id < s.nextId + 1
        rw [this, hid]; omega
  · constructor
    · show ((replaceDoc u s.docs).map Task.id).Nodup
      rw [map_id_replaceDoc]; exact hnd
    · intro d hd
      have hmem : d.id ∈ (replaceDoc u s.docs).map Task.id := List.mem_map_of_mem Task.id hd
      rw [map_id_replaceDoc] at hmem
      obtain ⟨x, hx, hxe⟩ := List.mem_map.1 hmem
      have := hlt x hx
      show d.id < s.nextId
      omega
  · constructor
    · exact hnd.sublist ((List.eraseP_sublist s.docs).map Task.id)
    · intro d hd
      exact hlt d (List.mem_of_mem_eraseP hd)

/-- Every collection built from the empty one by the handlers is keyed. -/
theorem run_keyed (reqs : List Request) : ∀ s : Store, s.Keyed → (run s reqs).Keyed := by
  induction reqs with
  | nil => intro s h; exact h
  | cons r rs ih => intro s h; exact ih (step s r) (step_keyed s r h)

theorem empty_keyed : Store.empty.Keyed := by
  simp [Store.Keyed, Store.empty]

theorem transitionRejected_newStatus (st : String) :
    transitionRejected st (newStatus st) = false := by
  cases h : transitionRejected st (newStatus st)
  · rfl
  · obtain ⟨h1, h2⟩ := (transitionRejected_eq_true _ _).1 h
    subst h1
    exact absurd h2 (by decide)

/-! ## The controller's contract -/

/-- C1: on a stored task whose status is `to-do`, `updateTask` with requested
status `done` answers 400 with `success = false`, whatever title the body
carries, and leaves the collection as it was, so the task is still stored
with status `to-do` and its former title. -/
theorem updateTask_todo_to_done_rejected (s : Store) (id : Nat) (t : Task)
    (title : Option String) (hfind : s.findById id = some t) (hst : t.status = "to-do") :
    (updateTask s (.key id) ⟨title, some "done"⟩).1.code = 400 ∧
    (updateTask s (.key id) ⟨title, some "done"⟩).1.success = false ∧
    (updateTask s (.key id) ⟨title, some "done"⟩).1.data = none ∧
    (updateTask s (.key id) ⟨title, some "done"⟩).2 = s ∧
    ((updateTask s (.key id) ⟨title, some "done"⟩).2.findById id).map Task.status = some "to-do" ∧
    ((updateTask s (.key id) ⟨title, some "done"⟩).2.findById id).map Task.title = some t.title := by
  have hrej : transitionRejected t.status (some "done") = true := by
    rw [hst]; decide
  have h : updateTask s (.key id) ⟨title, some "done"⟩ =
      (⟨400, false,
        some "Cannot move task from to-do directly to done. Must go through in-progress first.",
        none, none⟩, s) := by
    simp [updateTask, castId, hfind, hrej]
  rw [h]
  simp [hfind, hst]

theorem updateTask_todo_to_done_rejected_witness :
    ((updateTask ⟨[⟨0, "a", "to-do", 0⟩], 1, 1⟩ (.key 0) ⟨some "b", some "done"⟩).1.code = 400 ∧
    (updateTask ⟨[⟨0, "a", "to-do", 0⟩], 1, 1⟩ (.key 0) ⟨some "b", some "done"⟩).1.success = false ∧
    (updateTask ⟨[⟨0, "a", "to-do", 0⟩], 1, 1⟩ (.key 0) ⟨some "b", some "done"⟩).1.data = none ∧
    (updateTask ⟨[⟨0, "a", "to-do", 0⟩], 1, 1⟩ (.key 0) ⟨some "b", some "done"⟩).2
      = ⟨[⟨0, "a", "to-do", 0⟩], 1, 1⟩ ∧
    ((updateTask ⟨[⟨0, "a", "to-do", 0⟩], 1, 1⟩ (.key 0) ⟨some "b", some "done"⟩).2.findById 0).map
      Task.status = some "to-do" ∧
    ((updateTask ⟨[⟨0, "a", "to-do", 0⟩], 1, 1⟩ (.key 0) ⟨some "b", some "done"⟩).2.findById 0).map
      Task.title = some "a") :=
  updateTask_todo_to_done_rejected ⟨[⟨0, "a", "to-do", 0⟩], 1, 1⟩ 0 ⟨0, "a", "to-do", 0⟩
    (some "b") (by decide) (by decide)

/-- C2: on a stored task with current status `c`, `updateTask` with a supplied
status `st` of the enumeration, `(c, st)` other than `(to-do, done)`, answers
200 with `success = true`, and the returned and the stored task both carry
status `st` (this covers `done` to `to-do` and `done` to `in-progress`).
When the change was `to-do` to `in-progress`, a following update to `done`
succeeds as well and is stored. -/
theorem updateTask_status_accepted (s : Store) (id : Nat) (t : Task) (title : Option String)
    (st : String) (hfind : s.findById id = some t) (hmem : st ∈ statusEnum)
    (hedge : ¬ (t.status = "to-do" ∧ st = "done")) :
    (updateTask s (.key id) ⟨title, some st⟩).1.code = 200 ∧
    (updateTask s (.key id) ⟨title, some st⟩).1.success = true ∧
    (updateTask s (.key id) ⟨title, some st⟩).1.data.map Task.status = some st ∧
    ((updateTask s (.key id) ⟨title, some st⟩).2.findById id).map Task.status = some st ∧
    (updateTask s (.key id) ⟨title, some st⟩).2.findById id = (updateTask s (.key id) ⟨title, some st⟩).1.data ∧
    (t.status = "to-do" → st = "in-progress" → ∀ title2 : Option String,
      (updateTask (updateTask s (.key id) ⟨title, some st⟩).2 (.key id) ⟨title2, some "done"⟩).1.code = 200 ∧
      (updateTask (updateTask s (.key id) ⟨title, some st⟩).2 (.key id) ⟨title2, some "done"⟩).1.success = true ∧
      (updateTask (updateTask s (.key id) ⟨title, some st⟩).2 (.key id) ⟨title2, some "done"⟩).1.data.map
        Task.status = some "done" ∧
      ((updateTask (updateTask s (.key id) ⟨title, some st⟩).2 (.key id) ⟨title2, some "done"⟩).2.findById
        id).map Task.status = some "done") := by
  have htr := truthy_of_mem_statusEnum hmem
  have hguard : transitionRejected t.status (some st) = false := by
    cases h : transitionRejected t.status (some st)
    · rfl
    · have := (transitionRejected_eq_true _ _).1 h
      exact absurd ⟨this.1, by simpa using this.2⟩ hedge
  have hstatus : (assignFields t title (some st)).status = st :=
    assignFields_status_some t title htr
  have hvalid : validate (assignFields t title (some st)) = true := by
    rw [validate_iff, hstatus]; exact hmem
  have hup := updateTask_accepted ⟨title, some st⟩ hfind hguard hvalid
  have hfind1 := findById_after_update (assignFields t title (some st)) hfind
    (assignFields_id t title (some st))
  simp only at hup
  rw [hup]
  refine ⟨rfl, rfl, by simp [hstatus], by simp [hfind1, hstatus], hfind1, ?_⟩
  intro _ hst title2
  subst hst
  have hguard2 : transitionRejected (assignFields t title (some "in-progress")).status
      (some "done") = false := by
    rw [hstatus]; decide
  have hstatus2 : (assignFields (assignFields t title (some "in-progress")) title2
      (some "done")).status = "done" :=
    assignFields_status_some _ title2 (by decide)
  have hvalid2 : validate (assignFields (assignFields t title (some "in-progress")) title2
      (some "done")) = true := by
    rw [validate_iff, hstatus2]; decide
  have hup2 := updateTask_accepted ⟨title2, some "done"⟩ hfind1 hguard2 hvalid2
  have hfind2 := findById_after_update
    (assignFields (assignFields t title (some "in-progress")) title2 (some "done")) hfind1
    (assignFields_id _ title2 (some "done"))
  simp only at hup2
  rw [hup2]
  exact ⟨rfl, rfl, by simp [hstatus2], by simp [hfind2, hstatus2]⟩

theorem updateTask_status_accepted_witness :
    (updateTask ⟨[⟨0, "a", "to-do", 0⟩], 1, 1⟩ (.key 0) ⟨none, some "in-progress"⟩).1.code = 200 ∧
    ((updateTask ⟨[⟨0, "a", "to-do", 0⟩], 1, 1⟩ (.key 0) ⟨none, some "in-progress"⟩).2.findById 0).map
      Task.status = some "in-progress" ∧
    (updateTask (updateTask ⟨[⟨0, "a", "to-do", 0⟩], 1, 1⟩ (.key 0) ⟨none, some "in-progress"⟩).2 (.key 0)
      ⟨none, some "done"⟩).1.code = 200 :=
  have h := updateTask_status_accepted ⟨[⟨0, "a", "to-do", 0⟩], 1, 1⟩ 0 ⟨0, "a", "to-do", 0⟩
    none "in-progress" (by decide) (by decide) (by decide)
  ⟨h.1, h.2.2.2.1, (h.2.2.2.2.2 rfl rfl none).1⟩

/-- C3 as stated fails: in the empty collection no task matches the route
parameter `abc`, yet `updateTask` and `deleteTask` answer 500, not 404; the
lookup throws on text that denotes no identifier and the handlers' `catch`
branch answers. -/
theorem not_found_fails_on_malformed_id :
    Store.empty.docs = [] ∧
    updateTask Store.empty (.malformed "abc") ⟨none, none⟩ =
      (⟨500, false, some "Error updating task", none, some .cast⟩, Store.empty) ∧
    (updateTask Store.empty (.malformed "abc") ⟨none, none⟩).1.code ≠ 404 ∧
    deleteTask Store.empty (.malformed "abc") =
      (⟨500, false, some "Error deleting task", none, some .cast⟩, Store.empty) ∧
    (deleteTask Store.empty (.malformed "abc")).1.code ≠ 404 := by
  decide

/-- C3, amended: when the route parameter is the text of an identifier and no
stored task is keyed by it, `updateTask` (whatever the body) and `deleteTask`
both answer 404 with `success = false` and message `Task not found`, and the
collection is unchanged; when the parameter denotes no identifier, both
answer 500 with `success = false`, and the collection is unchanged as well. -/
theorem updateTask_deleteTask_not_found (s : Store) (id : Nat) (raw : String) (body : Body)
    (hfind : s.findById id = none) :
    updateTask s (.key id) body = (⟨404, false, some "Task not found", none, none⟩, s) ∧
    deleteTask s (.key id) = (⟨404, false, some "Task not found", none, none⟩, s) ∧
    updateTask s (.malformed raw) body =
      (⟨500, false, some "Error updating task", none, some .cast⟩, s) ∧
    deleteTask s (.malformed raw) =
      (⟨500, false, some "Error deleting task", none, some .cast⟩, s) := by
  simp [updateTask, deleteTask, castId, Store.findByIdAndDelete, hfind]

theorem updateTask_deleteTask_not_found_witness :
    updateTask ⟨[⟨0, "a", "to-do", 0⟩], 1, 1⟩ (.key 7) ⟨some "b", some "done"⟩
      = (⟨404, false, some "Task not found", none, none⟩, ⟨[⟨0, "a", "to-do", 0⟩], 1, 1⟩) ∧
    deleteTask ⟨[⟨0, "a", "to-do", 0⟩], 1, 1⟩ (.key 7)
      = (⟨404, false, some "Task not found", none, none⟩, ⟨[⟨0, "a", "to-do", 0⟩], 1, 1⟩) ∧
    updateTask ⟨[⟨0, "a", "to-do", 0⟩], 1, 1⟩ (.malformed "abc") ⟨some "b", some "done"⟩
      = (⟨500, false, some "Error updating task", none, some .cast⟩,
          ⟨[⟨0, "a", "to-do", 0⟩], 1, 1⟩) ∧
    deleteTask ⟨[⟨0, "a", "to-do", 0⟩], 1, 1⟩ (.malformed "abc")
      = (⟨500, false, some "Error deleting task", none, some .cast⟩,
          ⟨[⟨0, "a", "to-do", 0⟩], 1, 1⟩) :=
  updateTask_deleteTask_not_found ⟨[⟨0, "a", "to-do", 0⟩], 1, 1⟩ 7 "abc"
    ⟨some "b", some "done"⟩ (by decide)

/-- C4: a `createTask` request whose title is missing or the empty string is
answered 400 with `success = false` and message `Title is required`, and the
collection after the call equals the collection before it. -/
theorem createTask_title_required (s : Store) (body : Body)
    (htitle : body.title = none ∨ body.title = some "") :
    createTask s body = (⟨400, false, some "Title is required", none, none⟩, s) := by
  rcases htitle with h | h <;> simp [createTask, h, truthy]

theorem createTask_title_required_witness :
    createTask ⟨[⟨0, "a", "to-do", 0⟩], 1, 1⟩ ⟨some "", some "done"⟩
      = (⟨400, false, some "Title is required", none, none⟩, ⟨[⟨0, "a", "to-do", 0⟩], 1, 1⟩) :=
  createTask_title_required ⟨[⟨0, "a", "to-do", 0⟩], 1, 1⟩ ⟨some "", some "done"⟩
    (Or.inr rfl)

/-- C5 as stated fails: with title `a` and the supplied status `''` the
record created carries status `to-do`, not the supplied status (the handler
stores `status || 'to-do'`); with the supplied status `bogus` the model's
validation refuses the record, the answer is 500 and nothing is added. -/
theorem createTask_supplied_status_not_carried :
    createTask Store.empty ⟨some "a", some ""⟩ =
      (⟨201, true, some "Task created successfully", some ⟨0, "a", "to-do", 0⟩, none⟩,
        ⟨[⟨0, "a", "to-do", 0⟩], 1, 1⟩) ∧
    (⟨0, "a", "to-do", 0⟩ : Task).status ≠ "" ∧
    createTask Store.empty ⟨some "a", some "bogus"⟩ =
      (⟨500, false, some "Error creating task", none, some .validation⟩, Store.empty) := by
  decide

/-- C5, amended: a `createTask` request with a non-empty title is answered 201
with `success = true`, and exactly one record is appended to the collection
and returned as `data`; it carries the given title, and status `to-do` when
the request has no status or the empty string as status, or the supplied
status when that is one of `to-do`, `in-progress`, `done`. -/
theorem createTask_created (s : Store) (title st : String)
    (htitle : title ≠ "") (hst : st ∈ statusEnum) :
    createTask s ⟨some title, none⟩ =
      (⟨201, true, some "Task created successfully",
          some ⟨s.nextId, title, "to-do", s.clock⟩, none⟩,
        ⟨s.docs ++ [⟨s.nextId, title, "to-do", s.clock⟩], s.nextId + 1, s.clock + 1⟩) ∧
    createTask s ⟨some title, some ""⟩ =
      (⟨201, true, some "Task created successfully",
          some ⟨s.nextId, title, "to-do", s.clock⟩, none⟩,
        ⟨s.docs ++ [⟨s.nextId, title, "to-do", s.clock⟩], s.nextId + 1, s.clock + 1⟩) ∧
    createTask s ⟨some title, some st⟩ =
      (⟨201, true, some "Task created successfully",
          some ⟨s.nextId, title, st, s.clock⟩, none⟩,
        ⟨s.docs ++ [⟨s.nextId, title, st, s.clock⟩], s.nextId + 1, s.clock + 1⟩) ∧
    (createTask s ⟨some title, none⟩).2.docs.length = s.docs.length + 1 ∧
    (createTask s ⟨some title, some ""⟩).2.docs.length = s.docs.length + 1 ∧
    (createTask s ⟨some title, some st⟩).2.docs.length = s.docs.length + 1 := by
  have ht : truthy (some title) = true := by simpa [truthy] using htitle
  have hn : truthy none = false := rfl
  have he : truthy (some "") = false := rfl
  have hs := truthy_of_mem_statusEnum hst
  have hv0 : validate ⟨s.nextId, title, "to-do", s.clock⟩ = true :=
    (validate_iff _).2 (show "to-do" ∈ statusEnum by decide)
  have hv : validate ⟨s.nextId, title, st, s.clock⟩ = true := (validate_iff _).2 hst
  have h1 : createTask s ⟨some title, none⟩ =
      (⟨201, true, some "Task created successfully",
          some ⟨s.nextId, title, "to-do", s.clock⟩, none⟩,
        ⟨s.docs ++ [⟨s.nextId, title, "to-do", s.clock⟩], s.nextId + 1, s.clock + 1⟩) := by
    simp [createTask, ht, orDefault, hn, Store.create, hv0]
  have h2 : createTask s ⟨some title, some ""⟩ =
      (⟨201, true, some "Task created successfully",
          some ⟨s.nextId, title, "to-do", s.clock⟩, none⟩,
        ⟨s.docs ++ [⟨s.nextId, title, "to-do", s.clock⟩], s.nextId + 1, s.clock + 1⟩) := by
    simp [createTask, ht, orDefault, he, Store.create, hv0]
  have h3 : createTask s ⟨some title, some st⟩ =
      (⟨201, true, some "Task created successfully",
          some ⟨s.nextId, title, st, s.clock⟩, none⟩,
        ⟨s.docs ++ [⟨s.nextId, title, st, s.clock⟩], s.nextId + 1, s.clock + 1⟩) := by
    simp [createTask, ht, orDefault, hs, Store.create, hv]
  refine ⟨h1, h2, h3, ?_, ?_, ?_⟩
  · rw [h1]; simp
  · rw [h2]; simp
  · rw [h3]; simp

theorem createTask_created_witness :
    createTask ⟨[⟨0, "a", "to-do", 0⟩], 1, 1⟩ ⟨some "b", none⟩ =
      (⟨201, true, some "Task created successfully", some ⟨1, "b", "to-do", 1⟩, none⟩,
        ⟨[⟨0, "a", "to-do", 0⟩, ⟨1, "b", "to-do", 1⟩], 2, 2⟩) ∧
    createTask ⟨[⟨0, "a", "to-do", 0⟩], 1, 1⟩ ⟨some "b", some ""⟩ =
      (⟨201, true, some "Task created successfully", some ⟨1, "b", "to-do", 1⟩, none⟩,
        ⟨[⟨0, "a", "to-do", 0⟩, ⟨1, "b", "to-do", 1⟩], 2, 2⟩) ∧
    createTask ⟨[⟨0, "a", "to-do", 0⟩], 1, 1⟩ ⟨some "b", some "in-progress"⟩ =
      (⟨201, true, some "Task created successfully", some ⟨1, "b", "in-progress", 1⟩, none⟩,
        ⟨[⟨0, "a", "to-do", 0⟩, ⟨1, "b", "in-progress", 1⟩], 2, 2⟩) :=
  have h := createTask_created ⟨[⟨0, "a", "to-do", 0⟩], 1, 1⟩ "b" "in-progress"
    (by decide) (by decide)
  ⟨h.1, h.2.1, h.2.2.1⟩

/-- C6: after a successful `updateTask` on a stored task, the stored (and
returned) title is the supplied title when a non-empty title was supplied,
and the previous title when the title was omitted or empty; so a non-empty
title stays non-empty. -/
theorem updateTask_title (s : Store) (id : Nat) (t : Task) (body : Body)
    (hfind : s.findById id = some t) (hok : (updateTask s (.key id) body).1.code = 200) :
    ∃ u : Task,
      (updateTask s (.key id) body).2.findById id = some u ∧
      (updateTask s (.key id) body).1.data = some u ∧
      (∀ x, body.title = some x → x ≠ "" → u.title = x) ∧
      (body.title = none ∨ body.title = some "" → u.title = t.title) ∧
      (t.title ≠ "" → u.title ≠ "") := by
  obtain ⟨hguard, hvalid⟩ := updateTask_ok_inv body hfind hok
  have hup := updateTask_accepted body hfind hguard hvalid
  have hfind1 := findById_after_update (assignFields t body.title body.status) hfind
    (assignFields_id t body.title body.status)
  refine ⟨assignFields t body.title body.status, ?_, ?_, ?_, ?_, ?_⟩
  · rw [hup]; exact hfind1
  · rw [hup]
  · intro x hx hne
    rw [hx]; exact assignFields_title_some t body.status hne
  · intro h
    apply assignFields_title_falsy
    rcases h with h | h <;> simp [h, truthy]
  · intro hne
    cases htl : body.title with
    | none => rw [assignFields_title_falsy t body.status (by simp [truthy])]; exact hne
    | some x =>
      by_cases hx : x = ""
      · rw [assignFields_title_falsy t body.status (by simp [truthy, hx])]; exact hne
      · rw [assignFields_title_some t body.status hx]; exact hx

theorem updateTask_title_witness :
    ∃ u : Task,
      (updateTask ⟨[⟨0, "a", "to-do", 0⟩], 1, 1⟩ (.key 0) ⟨some "b", none⟩).2.findById 0 = some u ∧
      (updateTask ⟨[⟨0, "a", "to-do", 0⟩], 1, 1⟩ (.key 0) ⟨some "b", none⟩).1.data = some u ∧
      (∀ x, (⟨some "b", none⟩ : Body).title = some x → x ≠ "" → u.title = x) ∧
      ((⟨some "b", none⟩ : Body).title = none ∨ (⟨some "b", none⟩ : Body).title = some "" →
        u.title = (⟨0, "a", "to-do", 0⟩ : Task).title) ∧
      ((⟨0, "a", "to-do", 0⟩ : Task).title ≠ "" → u.title ≠ "") :=
  updateTask_title ⟨[⟨0, "a", "to-do", 0⟩], 1, 1⟩ 0 ⟨0, "a", "to-do", 0⟩ ⟨some "b", none⟩
    (by decide) (by decide)

/-- C8: updating a stored task with a status equal to its current status (one
of the enumeration) and no title answers 200 with the task as data and
leaves the collection exactly as it was; a `to-do` task updated to `to-do`
and a `done` task updated to `done` are not invalid transitions. -/
theorem updateTask_same_status (s : Store) (id : Nat) (t : Task)
    (hfind : s.findById id = some t) (hmem : t.status ∈ statusEnum) :
    updateTask s (.key id) ⟨none, some t.status⟩ =
      (⟨200, true, some "Task updated successfully", some t, none⟩, s) ∧
    transitionRejected t.status (some t.status) = false := by
  have hguard : transitionRejected t.status (some t.status) = false := by
    simp [transitionRejected]
  have hsame := assignFields_same t
  have hvalid : validate (assignFields t none (some t.status)) = true := by
    rw [hsame, validate_iff]; exact hmem
  have hup := updateTask_accepted ⟨none, some t.status⟩ hfind hguard hvalid
  simp only [hsame] at hup
  have hi := findById_id hfind
  subst hi
  have hrep : replaceDoc t s.docs = s.docs := replaceDoc_of_find t s.docs hfind
  rw [hup, hrep]
  exact ⟨rfl, hguard⟩

theorem updateTask_same_status_witness :
    (updateTask ⟨[⟨0, "a", "to-do", 0⟩, ⟨1, "b", "done", 1⟩], 2, 2⟩ (.key 1) ⟨none, some "done"⟩ =
      (⟨200, true, some "Task updated successfully", some ⟨1, "b", "done", 1⟩, none⟩,
        ⟨[⟨0, "a", "to-do", 0⟩, ⟨1, "b", "done", 1⟩], 2, 2⟩)) ∧
    transitionRejected "done" (some "done") = false :=
  updateTask_same_status ⟨[⟨0, "a", "to-do", 0⟩, ⟨1, "b", "done", 1⟩], 2, 2⟩ 1
    ⟨1, "b", "done", 1⟩ (by decide) (by decide)

/-- C7: on a keyed collection, `deleteTask` of a stored task answers 200 with
`success = true` and, as data, the task exactly as it was stored before the
call; afterwards no document has that identifier, the other documents are
the same as before, in the same order, and no task with that identifier
appears in what `getAllTasks` returns. -/
theorem deleteTask_removes (s : Store) (id : Nat) (t : Task) (hkeyed : s.Keyed)
    (hfind : s.findById id = some t) :
    (deleteTask s (.key id)).1 = ⟨200, true, some "Task deleted successfully", some t, none⟩ ∧
    (deleteTask s (.key id)).2.docs = s.docs.filter (fun d => d.id != id) ∧
    (∀ d ∈ (deleteTask s (.key id)).2.docs, d.id ≠ id) ∧
    (∀ d : Task, d.id ≠ id → (d ∈ (deleteTask s (.key id)).2.docs ↔ d ∈ s.docs)) ∧
    (deleteTask s (.key id)).2.findById id = none ∧
    (getAllTasks (deleteTask s (.key id)).2).1.code = 200 ∧
    (∀ ts, (getAllTasks (deleteTask s (.key id)).2).1.data = some ts → ∀ d ∈ ts, d.id ≠ id) := by
  have hdel : deleteTask s (.key id) =
      (⟨200, true, some "Task deleted successfully", some t, none⟩,
        ⟨s.docs.filter (fun d => d.id != id), s.nextId, s.clock⟩) := by
    simp [deleteTask, castId, Store.findByIdAndDelete, hfind, eraseP_eq_filter id s.docs hkeyed.1]
  rw [hdel]
  refine ⟨rfl, rfl, ?_, ?_, ?_, rfl, ?_⟩
  · intro d hd
    simpa using (List.mem_filter.1 hd).2
  · intro d hne
    simp [List.mem_filter, hne]
  · simp [Store.findById]
  · intro ts hts d hd
    have hts' : ts = List.mergeSort (s.docs.filter (fun d => d.id != id))
        (fun a b => decide (b.createdAt ≤ a.createdAt)) := by
      simpa [getAllTasks, Store.findSorted, eq_comm] using hts
    rw [hts', List.mem_mergeSort] at hd
    simpa using (List.mem_filter.1 hd).2

theorem deleteTask_removes_witness :
    (deleteTask ⟨[⟨0, "a", "to-do", 0⟩, ⟨1, "b", "done", 1⟩], 2, 2⟩ (.key 0)).1
      = ⟨200, true, some "Task deleted successfully", some ⟨0, "a", "to-do", 0⟩, none⟩ ∧
    (deleteTask ⟨[⟨0, "a", "to-do", 0⟩, ⟨1, "b", "done", 1⟩], 2, 2⟩ (.key 0)).2.docs
      = [⟨1, "b", "done", 1⟩] ∧
    (deleteTask ⟨[⟨0, "a", "to-do", 0⟩, ⟨1, "b", "done", 1⟩], 2, 2⟩ (.key 0)).2.findById 0 = none :=
  have h := deleteTask_removes ⟨[⟨0, "a", "to-do", 0⟩, ⟨1, "b", "done", 1⟩], 2, 2⟩ 0
    ⟨0, "a", "to-do", 0⟩ (by simp [Store.Keyed]) (by decide)
  ⟨h.1, h.2.1.trans (by decide), h.2.2.2.2.1⟩

/-- C9: in every collection reached from the empty one by any sequence of
handler calls with arbitrary bodies, each stored task has a status of the
enumeration `to-do`, `in-progress`, `done`. -/
theorem status_invariant (reqs : List Request) (d : Task)
    (hd : d ∈ (run Store.empty reqs).docs) : d.status ∈ statusEnum :=
  run_status reqs Store.empty (by simp [Store.empty]) d hd

theorem status_invariant_witness :
    (⟨0, "a", "in-progress", 0⟩ : Task).status ∈ statusEnum :=
  status_invariant
    [.create ⟨some "a", none⟩, .create ⟨some "b", some "bogus"⟩,
      .update (.key 0) ⟨none, some "in-progress"⟩]
    ⟨0, "a", "in-progress", 0⟩ (by decide)

/-- C10: the status `handleUpdateStatus` sends for a task's current status
(`in-progress` for `to-do`, `done` for `in-progress`, none otherwise) is never
rejected by the status guard of `updateTask`, so the request is not answered
400; `getActionButton` renders a clickable button exactly for `to-do` and
`in-progress` tasks, and a click on it moves the stored task from `to-do` to
`in-progress` or from `in-progress` to `done`, without an alert. -/
theorem ui_never_requests_forbidden_edge (s : Store) (t : Task) (tasks : List Task)
    (hfind : s.findById t.id = some t) :
    transitionRejected t.status (newStatus t.status) = false ∧
    (updateTask s (.key t.id) ⟨none, newStatus t.status⟩).1.code ≠ 400 ∧
    ((getActionButton t).onClick.isSome = true ↔
      t.status = "to-do" ∨ t.status = "in-progress") ∧
    (∀ a, (getActionButton t).onClick = some a →
      a = (t.id, t.status) ∧
      (handleUpdateStatus s tasks a.1 a.2).2.2 = none ∧
      ((t.status = "to-do" ∧
          ((handleUpdateStatus s tasks a.1 a.2).1.findById t.id).map Task.status
            = some "in-progress") ∨
        (t.status = "in-progress" ∧
          ((handleUpdateStatus s tasks a.1 a.2).1.findById t.id).map Task.status
            = some "done"))) := by
  have hguard := transitionRejected_newStatus t.status
  refine ⟨hguard, ?_, ?_, ?_⟩
  · cases hv : validate (assignFields t none (newStatus t.status))
    · simp [updateTask, castId, hfind, hguard, Store.save, hv]
    · simp [updateTask, castId, hfind, hguard, Store.save, hv]
  · by_cases h1 : t.status = "to-do"
    · simp [getActionButton, h1, ActionButton.onClick]
    · by_cases h2 : t.status = "in-progress"
      · simp [getActionButton, h2, ActionButton.onClick]
      · simp [getActionButton, h1, h2, ActionButton.onClick]
  · intro a ha
    have key : ∀ st : String, st ∈ statusEnum → newStatus t.status = some st →
        (handleUpdateStatus s tasks t.id t.status).2.2 = none ∧
        ((handleUpdateStatus s tasks t.id t.status).1.findById t.id).map Task.status
          = some st := by
      intro st hmem hnew
      have hstatus : (assignFields t none (some st)).status = st :=
        assignFields_status_some t none (truthy_of_mem_statusEnum hmem)
      have hvalid : validate (assignFields t none (some st)) = true := by
        rw [validate_iff, hstatus]; exact hmem
      have hup := updateTask_accepted ⟨none, some st⟩ hfind (hnew ▸ hguard) hvalid
      have hfind1 := findById_after_update (assignFields t none (some st)) hfind
        (assignFields_id t none (some st))
      simp only at hup
      simp [handleUpdateStatus, hnew, hup, getAllTasks, hfind1, hstatus]
    by_cases h1 : t.status = "to-do"
    · have hbtn : (getActionButton t).onClick = some (t.id, t.status) := by
        simp [getActionButton, h1, ActionButton.onClick]
      have hae : a = (t.id, t.status) := by rw [hbtn] at ha; exact (Option.some.inj ha).symm
      subst hae
      have hk := key "in-progress" (by decide) (by simp [newStatus, h1])
      exact ⟨rfl, hk.1, Or.inl ⟨h1, hk.2⟩⟩
    · by_cases h2 : t.status = "in-progress"
      · have hbtn : (getActionButton t).onClick = some (t.id, t.status) := by
          simp [getActionButton, h2, ActionButton.onClick]
        have hae : a = (t.id, t.status) := by rw [hbtn] at ha; exact (Option.some.inj ha).symm
        subst hae
        have hk := key "done" (by decide) (by simp [newStatus, h2])
        exact ⟨rfl, hk.1, Or.inr ⟨h2, hk.2⟩⟩
      · simp [getActionButton, h1, h2, ActionButton.onClick] at ha

theorem ui_never_requests_forbidden_edge_witness :
    transitionRejected "to-do" (newStatus "to-do") = false ∧
    (updateTask ⟨[⟨0, "a", "to-do", 0⟩], 1, 1⟩ (.key 0) ⟨none, newStatus "to-do"⟩).1.code ≠ 400 ∧
    (handleUpdateStatus ⟨[⟨0, "a", "to-do", 0⟩], 1, 1⟩ [] 0 "to-do").2.2 = none :=
  have h := ui_never_requests_forbidden_edge ⟨[⟨0, "a", "to-do", 0⟩], 1, 1⟩
    ⟨0, "a", "to-do", 0⟩ [] (by decide)
  ⟨h.1, h.2.1, (h.2.2.2 (0, "to-do") (by decide)).2.1⟩

end TaskManager
